import Mathlib

/-!
Verification of the Moodify emotion-analysis pipeline (`src/app.py`).

The Python source is shallowly embedded: text is a `List Char`, Python
floats become exact rationals `ℚ`, the mutable module-level flag
`fallback_mode` is threaded explicitly as a `Bool` state, the external
Hugging Face classifier is a parameter returning a `PrimaryOutcome`
(either an exception or a list of label/score pairs), and `random.choice`
is modelled by an explicit draw `r : Nat` indexing the list modulo its
length.
-/

attribute [local semireducible] Rat.mul Rat.inv Rat.add Rat.sub

/-- Python `kw in text` tested at the head position: `kw` is an initial
segment of `t`. Mirrors the character-by-character comparison. -/
def startsWith : List Char → List Char → Bool
  | [], _ => true
  | _ :: _, [] => false
  | c :: cs, d :: ds => c == d && startsWith cs ds

/-- Python substring test `kw in t` (membership of `kw` as a contiguous
run of `t`). -/
def isSubstr (kw : List Char) : List Char → Bool
  | [] => kw.isEmpty
  | d :: ds => startsWith kw (d :: ds) || isSubstr kw ds

/-- Python `text.lower()`. -/
def pyLower (s : List Char) : List Char := s.map Char.toLower

/-- Python `label.lower()` on a label string. -/
def strLower (s : String) : String := ⟨s.data.map Char.toLower⟩

/-- Python `text.strip()`: remove leading and trailing whitespace. -/
def pyStrip (s : List Char) : List Char :=
  ((s.dropWhile Char.isWhitespace).reverse.dropWhile Char.isWhitespace).reverse

/-- One step of splitting at whitespace: a whitespace character opens a
new (empty) chunk, any other character is prepended to the current chunk. -/
def splitStep (c : Char) (acc : List (List Char)) : List (List Char) :=
  if c.isWhitespace then [] :: acc
  else
    match acc with
    | [] => [[c]]
    | w :: ws => (c :: w) :: ws

/-- Split at whitespace characters, keeping the (possibly empty) chunks
between consecutive separators. -/
def splitWS (s : List Char) : List (List Char) := s.foldr splitStep [[]]

/-- Python `text.split()`: maximal runs of non-whitespace characters;
runs of whitespace are discarded, so no empty words are produced. -/
def words (s : List Char) : List (List Char) :=
  (splitWS s).filter (fun w => !w.isEmpty)

/-- `len(text_lower.split())` in the source. -/
def wordCount (s : List Char) : Nat := (words s).length

/-- One row of the `EMOTION_KEYWORDS` table of `src/app.py`: a category
label, its keyword list, and its `weight`. -/
structure EmotionCategory where
  label : String
  keywords : List String
  weight : ℚ
deriving DecidableEq

/-- The `EMOTION_KEYWORDS` table of `src/app.py`, in declaration order. -/
def EMOTION_KEYWORDS : List EmotionCategory := [
  ⟨"joy",
   ["happy", "excited", "joy", "celebration", "amazing", "wonderful", "fantastic",
    "great", "awesome", "brilliant", "perfect", "love", "thrilled", "ecstatic",
    "delighted", "cheerful", "elated", "euphoric", "blissful", "overjoyed"], 1⟩,
  ⟨"sadness",
   ["sad", "depressed", "down", "upset", "crying", "tears", "lonely", "empty",
    "heartbroken", "devastated", "miserable", "gloomy", "melancholy", "grief",
    "sorrow", "despair", "hopeless", "disappointed", "hurt", "lost"], 1⟩,
  ⟨"anger",
   ["angry", "mad", "furious", "rage", "annoyed", "frustrated", "irritated",
    "pissed", "outraged", "livid", "enraged", "heated", "bitter", "resentful",
    "hostile", "aggressive", "indignant", "incensed", "infuriated", "fuming"], 1⟩,
  ⟨"fear",
   ["scared", "afraid", "terrified", "anxious", "worried", "nervous", "panic",
    "frightened", "concerned", "stressed", "overwhelmed", "insecure", "uncertain",
    "apprehensive", "alarmed", "distressed", "uneasy", "troubled", "fearful", "dread"], 1⟩,
  ⟨"surprise",
   ["surprised", "shocked", "amazed", "unexpected", "sudden", "wow", "incredible",
    "unbelievable", "astonishing", "stunning", "remarkable", "extraordinary",
    "mind-blowing", "jaw-dropping", "startled", "bewildered", "flabbergasted",
    "astounded", "dumbfounded", "taken aback"], 1⟩,
  ⟨"love",
   ["love", "adore", "cherish", "devoted", "affection", "romantic", "passionate",
    "intimate", "caring", "tender", "warmth", "fondness", "attachment", "bond",
    "connection", "soulmate", "beloved", "darling", "sweetheart", "crush"], 1⟩,
  ⟨"neutral",
   ["okay", "fine", "normal", "regular", "usual", "average", "typical", "standard",
    "ordinary", "common", "routine", "everyday", "mundane", "calm", "steady",
    "balanced", "stable", "peaceful", "quiet", "still"], 1/2⟩]

/-- The closed emotion-label set of the spec (§3, EmotionLabel). -/
def emotionLabels : List String :=
  ["joy", "sadness", "anger", "fear", "surprise", "love", "neutral"]

/-- `high_intensity_words` in `determine_emotion_intensity`. -/
def high_intensity_words : List String :=
  ["extremely", "absolutely", "completely", "totally", "incredibly",
   "very", "so", "really", "super", "ultra", "immensely"]

/-- `sum(1 for c in text if c.isupper())`. -/
def upperCount (text : List Char) : Nat := text.countP (fun c => c.isUpper)

/-- `caps_ratio = sum(1 for c in text if c.isupper()) / len(text) if text else 0`. -/
def capsFrac (text : List Char) : ℚ :=
  if text = [] then 0 else (upperCount text : ℚ) / (text.length : ℚ)

/-- `determine_emotion_intensity(text, confidence)` from `src/app.py`:
base score is the confidence; +0.1 per intensifier word contained in the
lowercased text; +0.2 when the uppercase fraction exceeds 0.3;
+min(0.1 * number of exclamation marks, 0.3); thresholds 0.8 / 0.5. -/
def determine_emotion_intensity (text : List Char) (confidence : ℚ) : String :=
  let tl := pyLower text
  let s1 := high_intensity_words.foldl
    (fun acc w => if isSubstr w.toList tl then acc + 1/10 else acc) confidence
  let s2 := if 3/10 < capsFrac text then s1 + 2/10 else s1
  let s3 := s2 + min ((text.count '!' : ℚ) * (1/10)) (3/10)
  if 8/10 ≤ s3 then "high" else if 5/10 ≤ s3 then "moderate" else "mild"

/-- One `{'label': ..., 'score': ...}` entry, as produced both by the
fallback scorer and by the primary classifier. -/
structure EmotionScore where
  label : String
  score : ℚ
deriving DecidableEq

/-- Result dict of `fallback_emotion_detection` (the source dict has no
`fallback_used` key; `analyze_emotion_with_confidence` adds it). -/
structure FallbackResult where
  emotion : String
  confidence : ℚ
  all_emotions : List EmotionScore
  intensity : String
deriving DecidableEq

/-- Result dict of `analyze_emotion_with_confidence`. -/
structure AnalysisResult where
  emotion : String
  confidence : ℚ
  all_emotions : List EmotionScore
  fallback_used : Bool
  intensity : String
deriving DecidableEq

/-- `fallback_result['fallback_used'] = True` in the pipeline. -/
def withFallbackFlag (fr : FallbackResult) : AnalysisResult :=
  ⟨fr.emotion, fr.confidence, fr.all_emotions, true, fr.intensity⟩

/-- The inner loop of `fallback_emotion_detection` for one category:
`score += len(keyword)/10 + weight` and `matches += 1` for every keyword
contained in the lowercased text. Returns `(score, matches)`. -/
def keywordScore (tl : List Char) (cat : EmotionCategory) : ℚ × Nat :=
  cat.keywords.foldl
    (fun acc kw =>
      if isSubstr kw.toList tl then (acc.1 + (kw.length : ℚ) / 10 + cat.weight, acc.2 + 1)
      else acc)
    (0, 0)

/-- The `scores` dict of `fallback_emotion_detection` as an association
list in insertion (= table declaration) order: only categories with at
least one match, each with `min(score/word_count + matches*0.1, 1.0)`. -/
def scoresList (text : List Char) : List (String × ℚ) :=
  let tl := pyLower text
  EMOTION_KEYWORDS.filterMap (fun cat =>
    let sm := keywordScore tl cat
    if 0 < sm.2 then
      some (cat.label, min (sm.1 / (wordCount tl : ℚ) + (sm.2 : ℚ) * (1/10)) 1)
    else none)

/-- Python `max(iterable, key=...)` over a nonempty list `b :: l`: keeps
the current best and replaces it only on a strictly greater key, so the
first maximal element wins. -/
def pyMaxFrom (b : String × ℚ) (l : List (String × ℚ)) : String × ℚ :=
  l.foldl (fun best x => if best.2 < x.2 then x else best) b

/-- Insert into a descending-by-score list, after all entries with a
score ≥ the new score (the placement a stable descending sort gives). -/
def insertDesc (x : EmotionScore) : List EmotionScore → List EmotionScore
  | [] => [x]
  | y :: rest => if y.score < x.score then x :: y :: rest else y :: insertDesc x rest

/-- Python `sorted(..., key=lambda e: e['score'], reverse=True)`: stable
descending sort by score. -/
def sortByScoreDesc (l : List EmotionScore) : List EmotionScore :=
  l.foldl (fun acc x => insertDesc x acc) []

/-- `fallback_emotion_detection(text)` from `src/app.py`. -/
def fallback_emotion_detection (text : List Char) : FallbackResult :=
  if text = [] then ⟨"neutral", 3/10, [], "mild"⟩
  else
    match scoresList text with
    | [] => ⟨"neutral", 3/10, [⟨"neutral", 3/10⟩], "mild"⟩
    | p :: rest =>
      let primary := pyMaxFrom p rest
      ⟨primary.1, primary.2,
       sortByScoreDesc ((p :: rest).map (fun q => ⟨q.1, q.2⟩)),
       determine_emotion_intensity text primary.2⟩

/-- Behaviour of one call into the external Hugging Face classifier:
either the call throws, or it returns a list of label/score pairs (the
empty list also covers a malformed non-list response, which the source
handles identically). -/
inductive PrimaryOutcome where
  | raises : PrimaryOutcome
  | outputs : List EmotionScore → PrimaryOutcome

/-- `analyze_emotion_with_confidence(text)` from `src/app.py`.
`classifier` models the module-level `emotion_classifier` (`none` =
model failed to load), `fallback_mode` is the module-level sticky flag;
the returned `Bool` is the flag after the call. -/
def analyze_emotion_with_confidence (classifier : Option (List Char → PrimaryOutcome))
    (fallback_mode : Bool) (text : List Char) : AnalysisResult × Bool :=
  if text = [] ∨ (pyStrip text).length < 3 then
    (⟨"neutral", 3/10, [⟨"neutral", 3/10⟩], true, "mild"⟩, fallback_mode)
  else
    match fallback_mode, classifier with
    | false, some f =>
      (match f text with
       | PrimaryOutcome.outputs results =>
         if results = [] then (withFallbackFlag (fallback_emotion_detection text), true)
         else
           let sorted := sortByScoreDesc results
           let primary := sorted.headD ⟨"", 0⟩
           (⟨strLower primary.label, primary.score,
             sorted.map (fun r => ⟨strLower r.label, r.score⟩),
             false,
             determine_emotion_intensity text primary.score⟩, false)
       | PrimaryOutcome.raises => (withFallbackFlag (fallback_emotion_detection text), true))
    | _, _ => (withFallbackFlag (fallback_emotion_detection text), fallback_mode)

/-- `random.choice(l)` with the uniform draw made explicit: `r` is the
random sample and the chosen index is `r % len(l)`. -/
def pyChoice (l : List String) (r : Nat) : String := l.getD (r % l.length) ""

/-- `get_persona_greeting(persona_data, intensity)` from `src/app.py`.
`persona` is `none` when `persona_data` is falsy or has no
`'greeting_variations'` key, else the greeting list; `r` is the random
draw consumed by `random.choice`. -/
def get_persona_greeting (persona : Option (List String)) (intensity : String)
    (r : Nat) : String :=
  match persona with
  | none => "Hello! I\x27m here to help you with whatever you\x27re feeling."
  | some greetings =>
    if 1 < greetings.length then
      if intensity = "high" then greetings.getD 0 ""
      else if intensity = "mild" then greetings.getLastD ""
      else pyChoice (if 2 < greetings.length then (greetings.drop 1).dropLast else greetings) r
    else pyChoice greetings r

/-- Claim-side formulation (C5): raw score of a category as the sum over
its matched keywords of `len(kw)/10 + weight`. -/
def specRawScore (tl : List Char) (cat : EmotionCategory) : ℚ :=
  ((cat.keywords.filter (fun kw => isSubstr kw.toList tl)).map
    (fun kw => (kw.length : ℚ) / 10 + cat.weight)).sum

/-- Claim-side formulation (C5): number of matched keywords of a category. -/
def specMatchCount (tl : List Char) (cat : EmotionCategory) : Nat :=
  (cat.keywords.filter (fun kw => isSubstr kw.toList tl)).length

/-- Claim-side formulation (C5): the normalized, capped category score. -/
def specNormalized (tl : List Char) (cat : EmotionCategory) : ℚ :=
  min (specRawScore tl cat / (wordCount tl : ℚ) + (specMatchCount tl cat : ℚ) * (1/10)) 1

theorem startsWith_mem {kw t : List Char} (h : startsWith kw t = true) :
    ∀ c ∈ kw, c ∈ t := by
  induction kw generalizing t with
  | nil => intro c hc; cases hc
  | cons a as ih =>
    cases t with
    | nil => simp [startsWith] at h
    | cons b bs =>
      simp only [startsWith, Bool.and_eq_true, beq_iff_eq] at h
      intro c hc
      rcases List.mem_cons.mp hc with hceq | hctail
      · exact List.mem_cons.mpr (Or.inl (hceq.trans h.1))
      · exact List.mem_cons.mpr (Or.inr (ih h.2 c hctail))

theorem isSubstr_mem {kw t : List Char} (h : isSubstr kw t = true) :
    ∀ c ∈ kw, c ∈ t := by
  induction t with
  | nil =>
    intro c hc
    simp only [isSubstr, List.isEmpty_iff] at h
    subst h; cases hc
  | cons b bs ih =>
    simp only [isSubstr, Bool.or_eq_true] at h
    rcases h with h | h
    · exact startsWith_mem h
    · intro c hc; exact List.mem_cons.mpr (Or.inr (ih h c hc))

theorem splitStep_ne_nil (c : Char) (acc : List (List Char)) : splitStep c acc ≠ [] := by
  cases acc with
  | nil => simp only [splitStep]; split <;> simp
  | cons w ws => simp only [splitStep]; split <;> simp

theorem splitWS_ne_nil (s : List Char) : splitWS s ≠ [] := by
  cases s with
  | nil => simp [splitWS]
  | cons c cs => exact splitStep_ne_nil c (splitWS cs)

theorem words_cons_ws {c : Char} {cs : List Char} (hc : c.isWhitespace = true) :
    words (c :: cs) = words cs := by
  simp [words, splitWS, splitStep, hc]

theorem words_cons_nws (c : Char) (cs : List Char) (hc : c.isWhitespace = false) :
    words (c :: cs) ≠ [] := by
  have hstep : splitWS (c :: cs) = splitStep c (splitWS cs) := rfl
  simp only [words, hstep, splitStep, hc, if_false]
  cases hl : splitWS cs with
  | nil => exact absurd hl (splitWS_ne_nil cs)
  | cons w ws => simp

theorem words_ne_nil {s : List Char} {c : Char} (hc : c ∈ s)
    (hw : c.isWhitespace = false) : words s ≠ [] := by
  induction s with
  | nil => cases hc
  | cons d ds ih =>
    by_cases hd : d.isWhitespace
    · rw [words_cons_ws hd]
      rcases List.mem_cons.mp hc with hceq | hctail
      · subst hceq; rw [hw] at hd; cases hd
      · exact ih hctail
    · exact words_cons_nws d ds (by simpa using hd)

theorem keywordScore_foldl (tl : List Char) (cat : EmotionCategory) (l : List String)
    (a : ℚ) (n : Nat) :
    (l.foldl
      (fun acc kw =>
        if isSubstr kw.toList tl then (acc.1 + (kw.length : ℚ) / 10 + cat.weight, acc.2 + 1)
        else acc)
      (a, n))
    = (a + ((l.filter (fun kw => isSubstr kw.toList tl)).map
            (fun kw => (kw.length : ℚ) / 10 + cat.weight)).sum,
       n + (l.filter (fun kw => isSubstr kw.toList tl)).length) := by
  induction l generalizing a n with
  | nil => simp
  | cons kw rest ih =>
    by_cases hkw : isSubstr kw.toList tl
    · simp only [List.foldl_cons, hkw, if_true, ih, List.filter_cons, List.map_cons,
        List.sum_cons, List.length_cons, Prod.mk.injEq]
      exact ⟨by ring, by omega⟩
    · simp only [List.foldl_cons, hkw, if_false, ih, List.filter_cons,
        Bool.false_eq_true, Prod.mk.injEq]

theorem keywordScore_eq (tl : List Char) (cat : EmotionCategory) :
    keywordScore tl cat = (specRawScore tl cat, specMatchCount tl cat) := by
  simpa [keywordScore, specRawScore, specMatchCount] using
    keywordScore_foldl tl cat cat.keywords 0 0

theorem scoresList_eq (text : List Char) :
    scoresList text
      = (EMOTION_KEYWORDS.filter
          (fun cat => decide (0 < specMatchCount (pyLower text) cat))).map
          (fun cat => (cat.label, specNormalized (pyLower text) cat)) := by
  simp only [scoresList, keywordScore_eq, specNormalized]
  induction EMOTION_KEYWORDS with
  | nil => simp
  | cons cat rest ih =>
    cases hd : decide (0 < specMatchCount (pyLower text) cat) with
    | true =>
      have hp : 0 < specMatchCount (pyLower text) cat := of_decide_eq_true hd
      simp only [one_div] at ih
      simp [List.filterMap_cons, hp, List.filter_cons, hd, ih]
    | false =>
      have hp : ¬ 0 < specMatchCount (pyLower text) cat := of_decide_eq_false hd
      simp only [one_div] at ih
      simp [List.filterMap_cons, hp, List.filter_cons, hd, ih]

theorem pyMaxFrom_cons (b x : String × ℚ) (xs : List (String × ℚ)) :
    pyMaxFrom b (x :: xs) = pyMaxFrom (if b.2 < x.2 then x else b) xs := rfl

theorem pyMaxFrom_mem (b : String × ℚ) (l : List (String × ℚ)) :
    pyMaxFrom b l ∈ b :: l := by
  induction l generalizing b with
  | nil => exact List.mem_singleton.mpr rfl
  | cons x xs ih =>
    rw [pyMaxFrom_cons]
    rcases List.mem_cons.mp (ih (if b.2 < x.2 then x else b)) with heq | hmem
    · rw [heq]
      split
      · exact List.mem_cons_of_mem _ (List.mem_cons_self _ _)
      · exact List.mem_cons_self _ _
    · exact List.mem_cons_of_mem _ (List.mem_cons_of_mem _ hmem)

theorem pyMaxFrom_ub (b : String × ℚ) (l : List (String × ℚ)) :
    ∀ q ∈ b :: l, q.2 ≤ (pyMaxFrom b l).2 := by
  induction l generalizing b with
  | nil =>
    intro q hq
    rw [List.mem_singleton.mp hq]
    exact le_refl _
  | cons x xs ih =>
    intro q hq
    rw [pyMaxFrom_cons]
    by_cases hlt : b.2 < x.2
    · rw [if_pos hlt]
      rcases List.mem_cons.mp hq with heq | hq2
      · rw [heq]
        exact le_trans (le_of_lt hlt) (ih x x (List.mem_cons_self _ _))
      · exact ih x q hq2
    · rw [if_neg hlt]
      rcases List.mem_cons.mp hq with heq | hq2
      · rw [heq]
        exact ih b b (List.mem_cons_self _ _)
      · rcases List.mem_cons.mp hq2 with heq | hq3
        · rw [heq]
          exact le_trans (le_of_not_lt hlt) (ih b b (List.mem_cons_self _ _))
        · exact ih b q (List.mem_cons_of_mem _ hq3)

theorem pyMaxFrom_eq_or_gt (b : String × ℚ) (l : List (String × ℚ)) :
    pyMaxFrom b l = b ∨ b.2 < (pyMaxFrom b l).2 := by
  induction l generalizing b with
  | nil => exact Or.inl rfl
  | cons x xs ih =>
    rw [pyMaxFrom_cons]
    by_cases hlt : b.2 < x.2
    · rw [if_pos hlt]
      refine Or.inr ?_
      rcases ih x with heq | hgt
      · rw [heq]; exact hlt
      · exact lt_trans hlt hgt
    · rw [if_neg hlt]; exact ih b

theorem pyMaxFrom_find (b : String × ℚ) (l : List (String × ℚ)) :
    (b :: l).find? (fun q => decide (q.2 = (pyMaxFrom b l).2)) = some (pyMaxFrom b l) := by
  induction l generalizing b with
  | nil => simp [pyMaxFrom, List.find?]
  | cons x xs ih =>
    rw [pyMaxFrom_cons]
    by_cases hlt : b.2 < x.2
    · rw [if_pos hlt]
      have hbm : b.2 < (pyMaxFrom x xs).2 :=
        lt_of_lt_of_le hlt (pyMaxFrom_ub x xs x (List.mem_cons_self _ _))
      have hpredb : ¬ ((fun q : String × ℚ => decide (q.2 = (pyMaxFrom x xs).2)) b = true) := by
        simp [ne_of_lt hbm]
      rw [@List.find?_cons_of_neg _ (fun q : String × ℚ => decide (q.2 = (pyMaxFrom x xs).2))
        b (x :: xs) hpredb]
      exact ih x
    · rw [if_neg hlt]
      rcases pyMaxFrom_eq_or_gt b xs with heq | hgt
      · rw [heq]
        have hpredb : ((fun q : String × ℚ => decide (q.2 = b.2)) b = true) := by simp
        exact @List.find?_cons_of_pos _ (fun q : String × ℚ => decide (q.2 = b.2))
          b (x :: xs) hpredb
      · have hpredb : ¬ ((fun q : String × ℚ =>
            decide (q.2 = (pyMaxFrom b xs).2)) b = true) := by
          simp [ne_of_lt hgt]
        have hpredx : ¬ ((fun q : String × ℚ =>
            decide (q.2 = (pyMaxFrom b xs).2)) x = true) := by
          simp only [decide_eq_true_eq]
          exact ne_of_lt (lt_of_le_of_lt (le_of_not_lt hlt) hgt)
        rw [@List.find?_cons_of_neg _ (fun q : String × ℚ =>
              decide (q.2 = (pyMaxFrom b xs).2)) b (x :: xs) hpredb,
            @List.find?_cons_of_neg _ (fun q : String × ℚ =>
              decide (q.2 = (pyMaxFrom b xs).2)) x xs hpredx]
        have h2 := ih b
        rw [@List.find?_cons_of_neg _ (fun q : String × ℚ =>
              decide (q.2 = (pyMaxFrom b xs).2)) b xs hpredb] at h2
        exact h2

theorem scoresList_label_mem {text : List Char} {p : String × ℚ}
    (hp : p ∈ scoresList text) : p.1 ∈ emotionLabels := by
  rw [scoresList_eq] at hp
  rcases List.mem_map.mp hp with ⟨cat, hcat, rfl⟩
  have hmem : cat ∈ EMOTION_KEYWORDS := List.mem_of_mem_filter hcat
  have hall : ∀ c ∈ EMOTION_KEYWORDS, c.label ∈ emotionLabels := by decide
  exact hall cat hmem

theorem fallback_emotion_mem (text : List Char) :
    (fallback_emotion_detection text).emotion ∈ emotionLabels := by
  by_cases h : text = []
  · simp [fallback_emotion_detection, h, emotionLabels]
  · rw [fallback_emotion_detection, if_neg h]
    cases hsc : scoresList text with
    | nil => simp [emotionLabels]
    | cons p rest =>
      have hmem : pyMaxFrom p rest ∈ scoresList text := by
        rw [hsc]; exact pyMaxFrom_mem p rest
      exact scoresList_label_mem hmem

theorem intensity_foldl (tl : List Char) (l : List String) (c : ℚ) :
    l.foldl (fun acc w => if isSubstr w.toList tl then acc + 1/10 else acc) c
      = c + ((l.filter (fun w => isSubstr w.toList tl)).length : ℚ) * (1/10) := by
  induction l generalizing c with
  | nil => simp
  | cons w rest ih =>
    by_cases hw : isSubstr w.toList tl
    · simp only [List.foldl_cons, hw, if_true, ih, List.filter_cons, List.length_cons]
      push_cast
      ring
    · simp only [List.foldl_cons, hw, if_false, ih, List.filter_cons, Bool.false_eq_true]

/-- C2: for every text that is empty, whitespace-only, or of stripped length
below 3, `analyze_emotion_with_confidence` short-circuits without invoking any
classifier (the result and the flag are the same for every classifier) and
returns emotion neutral, confidence 0.3, `all_emotions` `[neutral 0.3]`,
`fallback_used` true, intensity mild, leaving the sticky flag unchanged. -/
theorem C2_short_input (classifier : Option (List Char → PrimaryOutcome))
    (fallback_mode : Bool) (text : List Char)
    (h : (pyStrip text).length < 3) :
    analyze_emotion_with_confidence classifier fallback_mode text
      = (⟨"neutral", 3/10, [⟨"neutral", 3/10⟩], true, "mild"⟩, fallback_mode) := by
  simp [analyze_emotion_with_confidence, Or.inr h]

theorem C2_short_input_witness :
    (pyStrip "ok".toList).length < 3
    ∧ analyze_emotion_with_confidence (some (fun _ => PrimaryOutcome.raises)) false "ok".toList
        = (⟨"neutral", 3/10, [⟨"neutral", 3/10⟩], true, "mild"⟩, false) :=
  ⟨by decide, C2_short_input _ _ _ (by decide)⟩

/-- C3: sticky degradation. When the flag is already true, a call leaves it
true, reports `fallback_used = true`, and behaves exactly as if no classifier
were loaded (the primary classifier is skipped). Moreover a primary-classifier
exception or an empty/malformed primary output on a non-short input flips the
flag to true and forces `fallback_used = true`. -/
theorem C3_sticky_degradation (classifier : Option (List Char → PrimaryOutcome))
    (text : List Char) :
    ((analyze_emotion_with_confidence classifier true text).2 = true)
    ∧ ((analyze_emotion_with_confidence classifier true text).1.fallback_used = true)
    ∧ (analyze_emotion_with_confidence classifier true text
        = analyze_emotion_with_confidence none true text)
    ∧ (∀ f : List Char → PrimaryOutcome,
        (f text = PrimaryOutcome.raises ∨ f text = PrimaryOutcome.outputs []) →
        ¬(text = [] ∨ (pyStrip text).length < 3) →
        (analyze_emotion_with_confidence (some f) false text).2 = true
        ∧ (analyze_emotion_with_confidence (some f) false text).1.fallback_used = true) := by
  by_cases hs : text = [] ∨ (pyStrip text).length < 3
  · refine ⟨?_, ?_, ?_, ?_⟩
    · simp [analyze_emotion_with_confidence, hs]
    · simp [analyze_emotion_with_confidence, hs]
    · simp [analyze_emotion_with_confidence, hs]
    · intro f hf hns
      exact absurd hs hns
  · refine ⟨?_, ?_, ?_, ?_⟩
    · cases classifier <;> simp [analyze_emotion_with_confidence, hs, withFallbackFlag]
    · cases classifier <;> simp [analyze_emotion_with_confidence, hs, withFallbackFlag]
    · cases classifier <;> simp [analyze_emotion_with_confidence, hs]
    · intro f hf hns
      rcases hf with hf | hf
      · constructor <;> simp [analyze_emotion_with_confidence, hs, hf, withFallbackFlag]
      · constructor <;> simp [analyze_emotion_with_confidence, hs, hf, withFallbackFlag]

theorem C3_sticky_degradation_witness :
    ((analyze_emotion_with_confidence (some (fun _ => PrimaryOutcome.raises))
        true "hello world".toList).2 = true)
    ∧ ((analyze_emotion_with_confidence (some (fun _ => PrimaryOutcome.raises))
        false "hello world".toList).2 = true) := by
  refine ⟨(C3_sticky_degradation (some (fun _ => PrimaryOutcome.raises))
    "hello world".toList).1, ?_⟩
  exact ((C3_sticky_degradation (some (fun _ => PrimaryOutcome.raises))
    "hello world".toList).2.2.2 (fun _ => PrimaryOutcome.raises) (Or.inl rfl) (by decide)).1

/-- C8: the fallback classifier is deterministic. Two results obtained from
`fallback_emotion_detection` on the identical text agree on `emotion`,
`confidence`, `intensity` and `all_emotions`; the embedded function takes no
random draw and no mutable state. -/
theorem C8_fallback_deterministic (text : List Char) (r1 r2 : FallbackResult)
    (h1 : r1 = fallback_emotion_detection text)
    (h2 : r2 = fallback_emotion_detection text) :
    r1.emotion = r2.emotion ∧ r1.confidence = r2.confidence
    ∧ r1.intensity = r2.intensity ∧ r1.all_emotions = r2.all_emotions := by
  subst h1
  subst h2
  exact ⟨rfl, rfl, rfl, rfl⟩

theorem C8_fallback_deterministic_witness :
    (fallback_emotion_detection "calm evening".toList).emotion
      = (fallback_emotion_detection "calm evening".toList).emotion
    ∧ (fallback_emotion_detection "calm evening".toList).confidence
      = (fallback_emotion_detection "calm evening".toList).confidence
    ∧ (fallback_emotion_detection "calm evening".toList).intensity
      = (fallback_emotion_detection "calm evening".toList).intensity
    ∧ (fallback_emotion_detection "calm evening".toList).all_emotions
      = (fallback_emotion_detection "calm evening".toList).all_emotions :=
  C8_fallback_deterministic "calm evening".toList _ _ rfl rfl

/-- C9: `fallback_emotion_detection` on falsy input (empty text, which also
models `None`) returns `all_emotions = []`, while a non-empty text with zero
keyword matches returns `all_emotions = [neutral 0.3]`; both branches agree on
emotion neutral, confidence 0.3, intensity mild, so the two default-neutral
branches differ only in the `all_emotions` shape. -/
theorem C9_all_emotions_shapes :
    ((fallback_emotion_detection []).all_emotions = []
      ∧ (fallback_emotion_detection []).emotion = "neutral"
      ∧ (fallback_emotion_detection []).confidence = 3/10
      ∧ (fallback_emotion_detection []).intensity = "mild")
    ∧ ∀ text : List Char, text ≠ [] →
        (∀ cat ∈ EMOTION_KEYWORDS, specMatchCount (pyLower text) cat = 0) →
        (fallback_emotion_detection text).all_emotions = [⟨"neutral", 3/10⟩]
        ∧ (fallback_emotion_detection text).emotion = "neutral"
        ∧ (fallback_emotion_detection text).confidence = 3/10
        ∧ (fallback_emotion_detection text).intensity = "mild" := by
  constructor
  · exact ⟨rfl, rfl, rfl, rfl⟩
  · intro text hne hzero
    have hsl : scoresList text = [] := by
      rw [scoresList_eq]
      have hf : EMOTION_KEYWORDS.filter
          (fun cat => decide (0 < specMatchCount (pyLower text) cat)) = [] := by
        apply List.filter_eq_nil_iff.mpr
        intro cat hc
        simp [hzero cat hc]
      rw [hf, List.map_nil]
    simp [fallback_emotion_detection, hne, hsl]

theorem C9_all_emotions_shapes_witness :
    ("xyz".toList ≠ []
      ∧ ∀ cat ∈ EMOTION_KEYWORDS, specMatchCount (pyLower "xyz".toList) cat = 0)
    ∧ (fallback_emotion_detection "xyz".toList).all_emotions = [⟨"neutral", 3/10⟩]
    ∧ (fallback_emotion_detection []).all_emotions = [] := by
  refine ⟨⟨by decide, by decide⟩, ?_, C9_all_emotions_shapes.1.1⟩
  exact (C9_all_emotions_shapes.2 "xyz".toList (by decide) (by decide)).1

/-- C10: the normalization division of `fallback_emotion_detection` is safe:
every keyword of `EMOTION_KEYWORDS` contains a non-whitespace character, and
whenever a category registers at least one match on the lowercased text, the
word count of that text is at least 1, so the divisor is never zero. -/
theorem C10_no_div_by_zero :
    (∀ cat ∈ EMOTION_KEYWORDS, ∀ kw ∈ cat.keywords,
      ∃ c ∈ kw.toList, c.isWhitespace = false)
    ∧ ∀ (text : List Char) (cat : EmotionCategory), cat ∈ EMOTION_KEYWORDS →
        0 < (keywordScore (pyLower text) cat).2 → 1 ≤ wordCount (pyLower text) := by
  constructor
  · decide
  · intro text cat hcat hpos
    rw [keywordScore_eq] at hpos
    simp only [] at hpos
    have hex : ∃ kw ∈ cat.keywords, isSubstr kw.toList (pyLower text) = true := by
      by_contra hno
      push_neg at hno
      have hfe : (cat.keywords.filter (fun kw => isSubstr kw.toList (pyLower text))) = [] := by
        apply List.filter_eq_nil_iff.mpr
        intro kw hkw
        simpa using hno kw hkw
      rw [specMatchCount, hfe] at hpos
      simp at hpos
    rcases hex with ⟨kw, hkwmem, hsub⟩
    have hall : ∀ c ∈ EMOTION_KEYWORDS, ∀ k ∈ c.keywords,
        ∃ d ∈ k.toList, d.isWhitespace = false := by decide
    rcases hall cat hcat kw hkwmem with ⟨c, hcmem, hcw⟩
    have hcin : c ∈ pyLower text := isSubstr_mem hsub c hcmem
    have hwne : words (pyLower text) ≠ [] := words_ne_nil hcin hcw
    have hlen : 0 < (words (pyLower text)).length := List.length_pos.mpr hwne
    simpa [wordCount] using hlen

theorem C10_no_div_by_zero_witness :
    (EMOTION_KEYWORDS.getD 0 ⟨"", [], 0⟩ ∈ EMOTION_KEYWORDS
      ∧ 0 < (keywordScore (pyLower "happy".toList) (EMOTION_KEYWORDS.getD 0 ⟨"", [], 0⟩)).2)
    ∧ 1 ≤ wordCount (pyLower "happy".toList) := by
  refine ⟨⟨by decide, by decide⟩, ?_⟩
  exact C10_no_div_by_zero.2 "happy".toList (EMOTION_KEYWORDS.getD 0 ⟨"", [], 0⟩)
    (by decide) (by decide)

/-- C6: the intensity estimate equals the claim formula: base confidence,
plus 0.1 per intensifier word contained in the lowercased text, plus 0.2 when
the uppercase fraction exceeds 0.3 (defined as 0 on empty text), plus
`min(0.1 * exclamation count, 0.3)`, thresholded at 0.8 (high) and 0.5
(moderate), else mild. -/
theorem C6_intensity_formula (text : List Char) (confidence : ℚ) :
    (determine_emotion_intensity text confidence
      = (if 8/10 ≤ confidence
              + ((high_intensity_words.filter
                  (fun w => isSubstr w.toList (pyLower text))).length : ℚ) * (1/10)
              + (if 3/10 < capsFrac text then 2/10 else 0)
              + min ((text.count '!' : ℚ) * (1/10)) (3/10)
          then "high"
          else if 5/10 ≤ confidence
              + ((high_intensity_words.filter
                  (fun w => isSubstr w.toList (pyLower text))).length : ℚ) * (1/10)
              + (if 3/10 < capsFrac text then 2/10 else 0)
              + min ((text.count '!' : ℚ) * (1/10)) (3/10)
          then "moderate" else "mild"))
    ∧ capsFrac [] = 0 := by
  constructor
  · simp only [determine_emotion_intensity, intensity_foldl]
    by_cases hcaps : 3/10 < capsFrac text
    · simp only [if_pos hcaps]
    · simp only [if_neg hcaps, add_zero]
  · rfl

/-- C7: greeting selection on a list with at least 2 variants. Intensity
`high` deterministically returns the first element, `mild` the last; for
`moderate` with at least 3 variants the result is the interior slice indexed
by the uniform draw modulo the slice length (every interior element is
reached), and with exactly 2 variants the whole list is sampled the same way. -/
theorem C7_greeting_selection (g : List String) (h2 : 2 ≤ g.length) :
    (∀ r, get_persona_greeting (some g) "high" r = g.getD 0 "")
    ∧ (∀ r, get_persona_greeting (some g) "mild" r = g.getLastD "")
    ∧ (3 ≤ g.length →
        (∀ r, get_persona_greeting (some g) "moderate" r
            = ((g.drop 1).dropLast).getD (r % ((g.drop 1).dropLast).length) "")
        ∧ (∀ i, i < ((g.drop 1).dropLast).length →
            get_persona_greeting (some g) "moderate" i = ((g.drop 1).dropLast).getD i ""))
    ∧ (g.length = 2 →
        (∀ r, get_persona_greeting (some g) "moderate" r = g.getD (r % g.length) "")
        ∧ (∀ i, i < g.length →
            get_persona_greeting (some g) "moderate" i = g.getD i "")) := by
  have h1 : 1 < g.length := h2
  refine ⟨?_, ?_, ?_, ?_⟩
  · intro r
    simp [get_persona_greeting, h1]
  · intro r
    simp [get_persona_greeting, h1]
  · intro h3
    have hgt2 : 2 < g.length := h3
    have hfor : ∀ r, get_persona_greeting (some g) "moderate" r
        = ((g.drop 1).dropLast).getD (r % ((g.drop 1).dropLast).length) "" := by
      intro r
      simp [get_persona_greeting, h1, hgt2, pyChoice]
    refine ⟨hfor, ?_⟩
    intro i hi
    rw [hfor i, Nat.mod_eq_of_lt hi]
  · intro hl2
    have hn3 : ¬ 2 < g.length := by omega
    have hfor : ∀ r, get_persona_greeting (some g) "moderate" r
        = g.getD (r % g.length) "" := by
      intro r
      simp [get_persona_greeting, h1, hn3, pyChoice]
    refine ⟨hfor, ?_⟩
    intro i hi
    rw [hfor i, Nat.mod_eq_of_lt hi]

theorem C7_greeting_selection_witness :
    2 ≤ (["g0", "g1", "g2", "g3", "g4"] : List String).length
    ∧ (get_persona_greeting (some ["g0", "g1", "g2", "g3", "g4"]) "high" 7 = "g0")
    ∧ (get_persona_greeting (some ["g0", "g1", "g2", "g3", "g4"]) "mild" 7 = "g4")
    ∧ (get_persona_greeting (some ["g0", "g1", "g2", "g3", "g4"]) "moderate" 7
        = (((["g0", "g1", "g2", "g3", "g4"] : List String).drop 1).dropLast).getD (7 % 3) "") := by
  refine ⟨by decide, ?_, ?_, ?_⟩
  · exact (C7_greeting_selection ["g0", "g1", "g2", "g3", "g4"] (by decide)).1 7
  · exact (C7_greeting_selection ["g0", "g1", "g2", "g3", "g4"] (by decide)).2.1 7
  · exact ((C7_greeting_selection ["g0", "g1", "g2", "g3", "g4"] (by decide)).2.2.1
      (by decide)).1 7

/-- C5: for a non-empty text with at least one keyword match, the scores table
of `fallback_emotion_detection` assigns every matching category exactly
`min(raw/word_count + matches*0.1, 1)` with `raw` the sum over matched
keywords of `len(kw)/10 + weight` (in table declaration order), and the
returned emotion/confidence is the first entry of that table attaining the
maximal normalized score — argmax with ties broken by declaration order. -/
theorem C5_fallback_scoring (text : List Char) (h1 : text ≠ [])
    (h2 : ∃ cat ∈ EMOTION_KEYWORDS, 0 < specMatchCount (pyLower text) cat) :
    scoresList text
      = (EMOTION_KEYWORDS.filter
          (fun cat => decide (0 < specMatchCount (pyLower text) cat))).map
          (fun cat => (cat.label, specNormalized (pyLower text) cat))
    ∧ (∀ q ∈ scoresList text, q.2 ≤ (fallback_emotion_detection text).confidence)
    ∧ (scoresList text).find?
        (fun q => decide (q.2 = (fallback_emotion_detection text).confidence))
        = some ((fallback_emotion_detection text).emotion,
                (fallback_emotion_detection text).confidence) := by
  have hne : scoresList text ≠ [] := by
    rw [scoresList_eq]
    rcases h2 with ⟨cat, hcat, hpos⟩
    intro hnil
    have hfnil := List.map_eq_nil_iff.mp hnil
    have := List.filter_eq_nil_iff.mp hfnil cat hcat
    simp [hpos] at this
  cases hsc : scoresList text with
  | nil => exact absurd hsc hne
  | cons p rest =>
    have hfb : fallback_emotion_detection text
        = ⟨(pyMaxFrom p rest).1, (pyMaxFrom p rest).2,
           sortByScoreDesc ((p :: rest).map (fun q => ⟨q.1, q.2⟩)),
           determine_emotion_intensity text (pyMaxFrom p rest).2⟩ := by
      simp [fallback_emotion_detection, h1, hsc]
    refine ⟨?_, ?_, ?_⟩
    · rw [← hsc]
      exact scoresList_eq text
    · intro q hq
      rw [hfb]
      exact pyMaxFrom_ub p rest q hq
    · rw [hfb]
      simpa using pyMaxFrom_find p rest

theorem C5_fallback_scoring_witness :
    ("happy day".toList ≠ []
      ∧ ∃ cat ∈ EMOTION_KEYWORDS, 0 < specMatchCount (pyLower "happy day".toList) cat)
    ∧ (scoresList "happy day".toList).find?
        (fun q => decide (q.2 = (fallback_emotion_detection "happy day".toList).confidence))
        = some ((fallback_emotion_detection "happy day".toList).emotion,
                (fallback_emotion_detection "happy day".toList).confidence) := by
  refine ⟨⟨by decide, by decide⟩, ?_⟩
  exact (C5_fallback_scoring "happy day".toList (by decide) (by decide)).2.2

/-- C1 counterexample: with the primary classifier returning the label
`Disgust` (a label the external model vocabulary has but the closed
EmotionLabel set lacks), the pipeline returns emotion `disgust`, outside the
closed set — the claim that the returned emotion always lies in
{joy, sadness, anger, fear, surprise, love, neutral} fails on the primary
path. -/
theorem C1_emotion_outside_closed_set :
    (analyze_emotion_with_confidence
        (some (fun _ => PrimaryOutcome.outputs [⟨"Disgust", 9/10⟩]))
        false "that was disgusting".toList).1.emotion = "disgust"
    ∧ "disgust" ∉ emotionLabels := by
  constructor
  · decide
  · decide

/-- C1 (amended): `analyze_emotion_with_confidence` is total (never raises,
always returns a well-formed result), and whenever the result comes from the
short-circuit or the fallback path (`fallback_used = true`) its emotion lies
in the closed EmotionLabel set; on a successful primary response the model
label is passed through lowercased and may lie outside the set. -/
theorem C1_closed_set_on_fallback (classifier : Option (List Char → PrimaryOutcome))
    (fallback_mode : Bool) (text : List Char)
    (h : (analyze_emotion_with_confidence classifier fallback_mode text).1.fallback_used
          = true) :
    (analyze_emotion_with_confidence classifier fallback_mode text).1.emotion
      ∈ emotionLabels := by
  by_cases hs : text = [] ∨ (pyStrip text).length < 3
  · simp [analyze_emotion_with_confidence, hs, emotionLabels]
  · cases fallback_mode with
    | true =>
      cases classifier with
      | none =>
        simpa [analyze_emotion_with_confidence, hs, withFallbackFlag] using
          fallback_emotion_mem text
      | some f =>
        simpa [analyze_emotion_with_confidence, hs, withFallbackFlag] using
          fallback_emotion_mem text
    | false =>
      cases classifier with
      | none =>
        simpa [analyze_emotion_with_confidence, hs, withFallbackFlag] using
          fallback_emotion_mem text
      | some f =>
        cases hf : f text with
        | raises =>
          simpa [analyze_emotion_with_confidence, hs, hf, withFallbackFlag] using
            fallback_emotion_mem text
        | outputs results =>
          by_cases hr : results = []
          · simpa [analyze_emotion_with_confidence, hs, hf, hr, withFallbackFlag] using
              fallback_emotion_mem text
          · simp [analyze_emotion_with_confidence, hs, hf, hr] at h

theorem C1_closed_set_on_fallback_witness :
    ((analyze_emotion_with_confidence none false "hello world".toList).1.fallback_used
      = true)
    ∧ (analyze_emotion_with_confidence none false "hello world".toList).1.emotion
        ∈ emotionLabels :=
  ⟨by decide, C1_closed_set_on_fallback none false "hello world".toList (by decide)⟩

/-- C4 counterexample: on a successful primary response carrying the unknown
label `Disgust`, the pipeline's result exposes `disgust` verbatim (lowercased
only) in `all_emotions` — no coercion to neutral and no rejection happens. -/
theorem C4_unknown_label_passed_through :
    (analyze_emotion_with_confidence
        (some (fun _ => PrimaryOutcome.outputs [⟨"Disgust", 4/5⟩]))
        false "ugh that smell".toList).1.all_emotions = [⟨"disgust", 4/5⟩]
    ∧ "disgust" ∉ emotionLabels := by
  constructor
  · decide
  · decide

/-- C4 (amended): on every successful primary response the labels are
normalized to lowercase and passed through otherwise unchanged: the result's
`all_emotions` is exactly the score-sorted model output with lowercased
labels, and `emotion` is the lowercased top label — unknown labels are
neither coerced to neutral nor rejected by the pipeline (the neutral default
exists only downstream at persona lookup). -/
theorem C4_labels_lowercased_only (f : List Char → PrimaryOutcome) (text : List Char)
    (results : List EmotionScore)
    (hf : f text = PrimaryOutcome.outputs results) (hr : results ≠ [])
    (hs : ¬(text = [] ∨ (pyStrip text).length < 3)) :
    (analyze_emotion_with_confidence (some f) false text).1.all_emotions
      = (sortByScoreDesc results).map (fun r => ⟨strLower r.label, r.score⟩)
    ∧ (analyze_emotion_with_confidence (some f) false text).1.emotion
      = strLower ((sortByScoreDesc results).headD ⟨"", 0⟩).label := by
  constructor
  · simp [analyze_emotion_with_confidence, hs, hf, hr]
  · simp [analyze_emotion_with_confidence, hs, hf, hr]

theorem C4_labels_lowercased_only_witness :
    ((fun _ : List Char => PrimaryOutcome.outputs [⟨"JOY", 1/2⟩, ⟨"Disgust", 3/4⟩])
        "feeling odd today".toList
      = PrimaryOutcome.outputs [⟨"JOY", 1/2⟩, ⟨"Disgust", 3/4⟩])
    ∧ (analyze_emotion_with_confidence
        (some (fun _ => PrimaryOutcome.outputs [⟨"JOY", 1/2⟩, ⟨"Disgust", 3/4⟩]))
        false "feeling odd today".toList).1.emotion
      = strLower ((sortByScoreDesc [⟨"JOY", 1/2⟩, ⟨"Disgust", 3/4⟩]).headD ⟨"", 0⟩).label := by
  refine ⟨rfl, ?_⟩
  exact (C4_labels_lowercased_only _ _ _ rfl (by decide) (by decide)).2
